import Mathlib

/-!
# Path2Hack API: a shallow embedding of `src/index.js`

The service is five Express route handlers.  Each handler is embedded as a pure
function of

* the request fields it destructures from `req.body` (a field is a string or is
  absent, `none` standing for JavaScript `undefined`),
* the state of the MongoDB collection it touches (the list of stored documents,
  oldest first), passed in and returned explicitly,
* an environment describing how the calls that leave the process answer during
  this request (database faults, the outbound HTTP fetch, the generative model).

The `try { ... } catch (error) { ... }` of a handler is embedded as an
`Except Err` computation (the body of the `try`) followed by a match that maps
`Except.error` to the handler's `500` answer.

Libraries the file calls but does not contain are embedded by what they return:
`findOne` and `insertOne` act on the list of stored documents, `JSON.parse`,
`fetch`, `axios.get`, the markup parser and the model call are fields of the
environment. The request body is taken to be an object, as `express.json()` and
`multer` provide one, so the destructuring in front of each `try` cannot throw.
-/

namespace Path2Hack

/-! ## Values shared by the handlers -/

/-- Content of a thrown error, as `console.error` would log it. -/
abbrev Err := String

/-- JSON body handed to `res.json`. -/
inductive Body where
  /-- The body `{ exists: b }`. -/
  | userExists (b : Bool)
  /-- The body `{ message: m }`. -/
  | message (m : String)
  /-- The body `{ error: m }`. -/
  | error (m : String)
  /-- The body `{ idea: t }`. -/
  | idea (t : String)
  /-- The body `{ review: t }`. -/
  | review (t : String)
deriving DecidableEq, Repr

/-- What `res.status(s).json(b)` sends. -/
structure Response where
  status : Nat
  body : Body
deriving DecidableEq, Repr

/-- String conversion applied by a template literal and by `JSON.parse` to a
request field: a string is kept, `undefined` becomes the text `undefined`. -/
def toStr : Option String → String
  | some s => s
  | none => "undefined"

/-! ## The persistence gateway -/

/-- How the database answers during one request: `none` means the call
succeeds, `some e` means the driver rejects the call with error `e`. -/
structure DbEnv where
  findOneFault : Option Err
  insertOneFault : Option Err
deriving Repr

/-- A database that answers every call. -/
def DbEnv.healthy : DbEnv := ⟨none, none⟩

/-- The call `collection.findOne(filter)`: the first stored document matching the
filter, `none` for JavaScript `null`. -/
def findOne {α : Type} (fault : Option Err) (filter : α → Bool) (coll : List α) :
    Except Err (Option α) :=
  match fault with
  | some e => .error e
  | none => .ok (coll.find? filter)

/-- The call `collection.insertOne(doc)`: the document is appended; a rejected
call stores nothing. -/
def insertOne {α : Type} (fault : Option Err) (doc : α) (coll : List α) :
    Except Err (List α) :=
  match fault with
  | some e => .error e
  | none => .ok (coll ++ [doc])

/-! ## `POST /api/register` (index.js lines 45-64) -/

/-- A document of the `users` collection. -/
structure User where
  username : Option String
  email : Option String
deriving DecidableEq, Repr

/-- The fields read from `req.body` by the register handler. -/
structure RegisterRequest where
  username : Option String
  email : Option String
deriving DecidableEq, Repr

/-- Body of the `try` block of the register handler. -/
def registerTry (env : DbEnv) (usersCollection : List User) (req : RegisterRequest) :
    Except Err (Response × List User) := do
  let existingUser ← findOne env.findOneFault (fun u => u.email == req.email) usersCollection
  if existingUser.isSome then
    return (⟨200, .userExists true⟩, usersCollection)
  let newUser : User := ⟨req.username, req.email⟩
  let inserted ← insertOne env.insertOneFault newUser usersCollection
  return (⟨201, .message "User registered successfully"⟩, inserted)

/-- The handler of `POST /api/register`: the response and the collection after it. -/
def register (env : DbEnv) (usersCollection : List User) (req : RegisterRequest) :
    Response × List User :=
  match registerTry env usersCollection req with
  | .ok r => r
  | .error _ => (⟨500, .error "Error registering user"⟩, usersCollection)

/-! ## `POST /api/createProject` (index.js lines 173-220) -/

/-- A decoded JSON value, the result of `JSON.parse`, given by the tree of the
text it was decoded from: numbers keep their lexeme, strings are sequences of
UTF-16 code units (as JavaScript strings are, so that an escaped lone surrogate
is kept), and the members of an object are listed as written. The value built
by `JSON.parse` is a function of this tree. -/
inductive Json where
  | null
  | bool (b : Bool)
  | num (lexeme : String)
  | str (codeUnits : List Nat)
  | arr (items : List Json)
  | obj (members : List (List Nat × Json))
deriving Repr

/-- A document of the `projects` collection. -/
structure Project where
  projectName : Option String
  imageUrl : Option String
  hackathonName : Option String
  devpostUrl : Option String
  devfolioUrl : Option String
  githubUrl : Option String
  projectDescription : Option String
  techStack : Json
  isProjectPublic : Bool
  isWinner : Bool
  userName : Option String
deriving Repr

/-- The multipart form fields read from `req.body`, and `req.file.path` when a
file was uploaded. -/
structure CreateProjectRequest where
  projectName : Option String
  hackathonName : Option String
  devpostUrl : Option String
  devfolioUrl : Option String
  githubUrl : Option String
  projectDescription : Option String
  techStack : Option String
  isProjectPublic : Option String
  isWinner : Option String
  userName : Option String
  filePath : Option String
deriving DecidableEq, Repr

/-- What the create-project handler depends on: the database and the decoder
`JSON.parse`, which either returns a value or throws. -/
structure ProjectEnv where
  db : DbEnv
  jsonParse : String → Except Err Json

/-- The object literal `newProject` (lines 199-211), given the decoded stack. -/
def newProject (req : CreateProjectRequest) (stack : Json) : Project where
  projectName := req.projectName
  imageUrl := req.filePath
  hackathonName := req.hackathonName
  devpostUrl := req.devpostUrl
  devfolioUrl := req.devfolioUrl
  githubUrl := req.githubUrl
  projectDescription := req.projectDescription
  techStack := stack
  isProjectPublic := req.isProjectPublic == some "true"
  isWinner := req.isWinner == some "true"
  userName := req.userName

/-- Body of the `try` block of the create-project handler. -/
def createProjectTry (env : ProjectEnv) (projectsCollection : List Project)
    (req : CreateProjectRequest) : Except Err (Response × List Project) := do
  let existingProject ←
    findOne env.db.findOneFault (fun p => p.projectName == req.projectName) projectsCollection
  if existingProject.isSome then
    return (⟨400, .error "Project with the same name already exists"⟩, projectsCollection)
  let stack ← env.jsonParse (toStr req.techStack)
  let inserted ← insertOne env.db.insertOneFault (newProject req stack) projectsCollection
  return (⟨201, .message "Project created successfully"⟩, inserted)

/-- The handler of `POST /api/createProject`. -/
def createProject (env : ProjectEnv) (projectsCollection : List Project)
    (req : CreateProjectRequest) : Response × List Project :=
  match createProjectTry env projectsCollection req with
  | .ok r => r
  | .error _ => (⟨500, .error "Error creating project"⟩, projectsCollection)

/-! ## The generative-review client and the outbound fetch -/

/-- What reading a field of an element of the decoded listing gives: `undefined`
when the element has no such field, else the JSON value of the field. A value
that is neither `null` nor a string (a number, a boolean, an array, an object)
is given by the string JavaScript converts it to, which is all the handler
uses of it. -/
inductive JsValue where
  | undefined
  | null
  | string (s : String)
  | other (text : String)
deriving DecidableEq, Repr

/-- An element of the repository listing, reduced to the two fields the
callback destructures (line 77). The listing API documents `language` as a
string or `null`; an element without the field gives `undefined`. -/
structure Repo where
  name : JsValue
  language : JsValue
deriving DecidableEq, Repr

/-- The decoded body of the listing response: an array whose elements can be
destructured, or any value on which `repos.slice(0, 20).map(...)` throws a
`TypeError` (a value that is not an array, for instance the object sent for an
unknown account, or an array with a `null` among its first 20 elements). -/
inductive Listing where
  | array (repos : List Repo)
  | other
deriving Repr

/-- The response object returned by `fetch`; `json` is the outcome of
`reposResponse.json()`. -/
structure FetchResponse where
  json : Except Err Listing

/-- What the GitHub idea handler depends on: `fetch(url)` and the model call
`model.generateContent(prompt)` followed by `result.response.text()`. -/
structure GithubEnv where
  fetch : String → Except Err FetchResponse
  generateContent : String → Except Err String

/-! ### The object `languageCount` -/

/-- A value stored in `languageCount`: a count, or a string (which arises only
when the looked-up value was inherited from `Object.prototype`; its text is
never read). -/
inductive TallyVal where
  | number (n : Nat)
  | text
deriving DecidableEq, Repr

/-- An ordinary JavaScript object created by the literal `{}`: its own
properties in creation order. Its prototype is `Object.prototype`. -/
structure JsObject where
  props : List (String × TallyVal)
deriving DecidableEq, Repr

/-- The property key used by `languageCount[language]`: a string is the key
itself, `undefined` and `null` are converted to the strings `undefined` and
`null`, any other value to its string conversion. -/
def toPropertyKey : JsValue → String
  | .undefined => "undefined"
  | .null => "null"
  | .string s => s
  | .other text => text

/-- Names of the properties every object inherits from `Object.prototype`. -/
def objectPrototypeKeys : List String :=
  ["constructor", "__defineGetter__", "__defineSetter__", "hasOwnProperty",
   "__lookupGetter__", "__lookupSetter__", "isPrototypeOf", "propertyIsEnumerable",
   "toString", "valueOf", "__proto__", "toLocaleString"]

/-- The read `o[k]`: an own property, else a property inherited from
`Object.prototype` (a function or an object, modelled as `text` since it is
truthy and not a number), else `undefined` (`none`). -/
def JsObject.get (o : JsObject) (k : String) : Option TallyVal :=
  match o.props.lookup k with
  | some v => some v
  | none => if k ∈ objectPrototypeKeys then some .text else none

/-- The write `o[k] = v` for a value `v` that is a number or a string. The key
`__proto__` reaches the inherited setter, which ignores such a value, so no own
property is created. Any other key updates the own property in place or creates
it after the existing ones. -/
def JsObject.set (o : JsObject) (k : String) (v : TallyVal) : JsObject :=
  if k = "__proto__" then o
  else if o.props.any (fun p => p.1 == k) then
    ⟨o.props.map (fun p => if p.1 == k then (k, v) else p)⟩
  else ⟨o.props ++ [(k, v)]⟩

/-- The expression `(v || 0) + 1`. -/
def plusOne : Option TallyVal → TallyVal
  | none => .number 1
  | some (.number n) => .number (n + 1)
  | some .text => .text

/-- Numeric value of a string of decimal digits. -/
def digitsValue (k : String) : Nat :=
  k.data.foldl (fun n c => 10 * n + (c.toNat - 48)) 0

/-- Whether a property key is an array index: the canonical decimal form of an
integer below `2^32 - 1`. -/
def isArrayIndex (k : String) : Bool :=
  k.data ≠ [] && k.data.all Char.isDigit && (k.data.head? != some '0' || k.data.length == 1)
    && digitsValue k < 4294967295

/-- The call `Object.keys(o)`: array-index keys in ascending numeric order, then
the other keys in creation order. -/
def JsObject.keys (o : JsObject) : List String :=
  let own := o.props.map Prod.fst
  (own.filter isArrayIndex).insertionSort (fun a b => digitsValue a ≤ digitsValue b)
    ++ own.filter (fun k => !isArrayIndex k)

/-! ## `POST /api/githubProjectIdea` (index.js lines 66-101) -/

/-- The fields read from `req.body` by the GitHub idea handler. -/
structure GithubIdeaRequest where
  gitHubToken : Option String
  ideaDesc : Option String
deriving DecidableEq, Repr

/-- One run of the callback passed to `map` (lines 76-80): the side effect on
`languageCount`. -/
def tally (languageCount : JsObject) (repo : Repo) : JsObject :=
  let key := toPropertyKey repo.language
  languageCount.set key (plusOne (languageCount.get key))

/-- The object `languageCount` after `repos.slice(0, 20).map(...)`. -/
def languageCount (repos : List Repo) : JsObject :=
  (repos.take 20).foldl tally ⟨[]⟩

/-- The language list interpolated into the prompt (lines 82-88). -/
def languageList (repos : List Repo) : String :=
  ", ".intercalate ((languageCount repos).keys.filter (fun language => language != "null"))

/-- The template literal `prompt` of the GitHub idea handler. -/
def githubPrompt (repos : List Repo) (ideaDesc : Option String) : String :=
  "A user whose top GitHub Repos consist of these languages : " ++ languageList repos
    ++ ". Give review in about 1 line, idea description is " ++ toStr ideaDesc
    ++ " (Write a unique project idea in the format: Project Name: description: what makes it unique: tech stack: features: and another important things DO NOT WRITE ANYTHING ELSE OR USELESS)"

/-- Body of the `try` block of the GitHub idea handler. -/
def githubProjectIdeaTry (env : GithubEnv) (req : GithubIdeaRequest) : Except Err Response := do
  let reposResponse ← env.fetch ("https://api.github.com/users/" ++ toStr req.gitHubToken ++ "/repos")
  let decoded ← reposResponse.json
  let repos ← match decoded with
    | .array rs => pure rs
    | .other => throw "TypeError: repos.slice(...).map is not a function"
  let aiIdea ← env.generateContent (githubPrompt repos req.ideaDesc)
  return ⟨200, .idea aiIdea⟩

/-- The handler of `POST /api/githubProjectIdea`. -/
def githubProjectIdea (env : GithubEnv) (req : GithubIdeaRequest) : Response :=
  match githubProjectIdeaTry env req with
  | .ok r => r
  | .error _ => ⟨500, .error "Error fetching GitHub repositories"⟩

/-! ## `POST /api/projectIdea` (index.js lines 103-124) -/

/-- The fields read from `req.body` by the freeform idea handler. `keywords` is
`none` when the field is absent or is not an array, in which case
`keywords.join` throws a `TypeError`. -/
structure ProjectIdeaRequest where
  description : Option String
  theme : Option String
  keywords : Option (List String)
deriving DecidableEq, Repr

/-- The template literal `prompt` of the freeform idea handler (lines 107-113). -/
def projectIdeaPrompt (description theme : Option String) (keywords : List String) : String :=
  "Generate a unique project idea based on the following description, theme, and keywords:\n\n    Description: "
    ++ toStr description ++ "\n    Theme: " ++ toStr theme ++ "\n    Keywords: "
    ++ ", ".intercalate keywords
    ++ "\n    \n    Write a unique project idea in the format: Project Name: description: what makes it unique: tech stack: features: and another important things DO NOT WRITE ANYTHING ELSE OR USELESS"

/-- Body of the `try` block of the freeform idea handler. -/
def projectIdeaTry (generateContent : String → Except Err String) (req : ProjectIdeaRequest) :
    Except Err Response := do
  let keywords ← match req.keywords with
    | some ks => pure ks
    | none => throw "TypeError: keywords.join is not a function"
  let aiIdea ← generateContent (projectIdeaPrompt req.description req.theme keywords)
  return ⟨200, .idea aiIdea⟩

/-- The handler of `POST /api/projectIdea`. -/
def projectIdea (generateContent : String → Except Err String) (req : ProjectIdeaRequest) :
    Response :=
  match projectIdeaTry generateContent req with
  | .ok r => r
  | .error _ => ⟨500, .error "Error generating project idea"⟩

/-! ## `POST /api/scrapeAndReviewProject` (index.js lines 126-171) -/

/-- A node of the parsed document tree. -/
inductive Node where
  | text (data : String)
  | comment (data : String)
  | element (tagName : String) (childNodes : List Node)
deriving Repr

mutual
/-- What a node contributes to the `textContent` of an element above it: the
data of its text descendants in tree order; comments contribute nothing. -/
def Node.descendantText : Node → String
  | .text data => data
  | .comment _ => ""
  | .element _ childNodes => descendantTextList childNodes
/-- Concatenated contribution of a list of sibling nodes. -/
def descendantTextList : List Node → String
  | [] => ""
  | n :: ns => n.descendantText ++ descendantTextList ns
end

/-- The DOM attribute `node.textContent`. -/
def Node.textContent : Node → String
  | .text data => data
  | .comment data => data
  | .element _ childNodes => descendantTextList childNodes

mutual
/-- The elements among a node and its descendants, in document order. -/
def Node.elements : Node → List Node
  | .text _ => []
  | .comment _ => []
  | .element tagName childNodes => .element tagName childNodes :: elementsList childNodes
/-- The elements among a list of sibling nodes and their descendants, in
document order. -/
def elementsList : List Node → List Node
  | [] => []
  | n :: ns => n.elements ++ elementsList ns
end

/-- The call `document.querySelectorAll("body *")`, given the child nodes of the
document body: every element below the body, in document order. -/
def querySelectorAllBodyStar (bodyChildNodes : List Node) : List Node :=
  elementsList bodyChildNodes

/-- White space and line terminators, the characters removed by
`String.prototype.trim`. -/
def isJsWhiteSpace (c : Char) : Bool :=
  c.toNat ∈ [0x9, 0xA, 0xB, 0xC, 0xD, 0x20, 0xA0, 0x1680, 0x2028, 0x2029, 0x202F, 0x205F,
    0x3000, 0xFEFF] || (0x2000 ≤ c.toNat && c.toNat ≤ 0x200A)

/-- The method `String.prototype.trim`. -/
def jsTrim (s : String) : String :=
  ⟨((s.data.dropWhile isJsWhiteSpace).reverse.dropWhile isJsWhiteSpace).reverse⟩

/-- One run of the callback passed to `forEach` (lines 141-145). -/
def appendNodeText (pageText : String) (node : Node) : String :=
  if node.textContent ≠ "" ∧ jsTrim node.textContent ≠ "" then
    pageText ++ (jsTrim node.textContent ++ " ")
  else pageText

/-- The variable `pageText` after the `forEach` loop (lines 138-145). -/
def pageText (bodyChildNodes : List Node) : String :=
  (querySelectorAllBodyStar bodyChildNodes).foldl appendNodeText ""

/-- The template literal `prompt` of the scrape handler (lines 148-158). -/
def reviewPrompt (pageText : String) : String :=
  "\n        Review the following project and provide feedback on areas of improvement.\n        Rate the project on a scale of 1 to 10 based on creativity, technical challenge, and potential impact.\n  \n        Project Text Content: "
    ++ pageText
    ++ "\n  \n        Provide feedback in the following format:\n        Review: [Your Review]\n        Improvements: [Suggested Improvements]\n        Rating (1-10): [Your Rating]\n      "

/-- What the scrape handler depends on: `axios.get(url)` giving the markup, the
parser `new JSDOM(data)` giving the child nodes of `document.body`, and the
model call. -/
structure ScrapeEnv where
  axiosGet : Option String → Except Err String
  parseBody : String → List Node
  generateContent : String → Except Err String

/-- Body of the `try` block of the scrape handler. -/
def scrapeAndReviewProjectTry (env : ScrapeEnv) (url : Option String) : Except Err Response := do
  let data ← env.axiosGet url
  let bodyChildNodes := env.parseBody data
  let reviewContent ← env.generateContent (reviewPrompt (pageText bodyChildNodes))
  return ⟨200, .review reviewContent⟩

/-- The handler of `POST /api/scrapeAndReviewProject`. -/
def scrapeAndReviewProject (env : ScrapeEnv) (url : Option String) : Response :=
  match scrapeAndReviewProjectTry env url with
  | .ok r => r
  | .error _ => ⟨500, .error "Error scraping and reviewing project"⟩


/-! ## A decoder for JSON text

`JSON.parse` is a built-in of the language, so the create-project handler takes
the decoder as part of its environment. The definitions below give one concrete
decoder following the JSON grammar (white space, literals, numbers, strings with
escapes, arrays, objects); it instantiates the environment in the examples. -/

/-- Drops leading JSON white space. -/
def skipWs : List Char → List Char
  | [] => []
  | c :: cs => if c = ' ' ∨ c = '\t' ∨ c = '\n' ∨ c = '\r' then skipWs cs else c :: cs

/-- Value of a hexadecimal digit. -/
def hexValue (c : Char) : Option Nat :=
  if '0' ≤ c ∧ c ≤ '9' then some (c.toNat - 48)
  else if 'a' ≤ c ∧ c ≤ 'f' then some (c.toNat - 87)
  else if 'A' ≤ c ∧ c ≤ 'F' then some (c.toNat - 55)
  else none

/-- The UTF-16 code units of a character: one unit below U+10000, a surrogate
pair from there on. -/
def utf16 (c : Char) : List Nat :=
  if c.toNat < 65536 then [c.toNat]
  else [55296 + (c.toNat - 65536) / 1024, 56320 + (c.toNat - 65536) % 1024]

/-- Reads a JSON string after its opening quote, up to the closing quote. The
code units read so far are in `acc`, last one first. An escape of four
hexadecimal digits gives the code unit it names, so an escaped surrogate pair
gives the two units of the pair. -/
def readString (acc : List Nat) : List Char → Option (List Nat × List Char)
  | [] => none
  | '\x5c' :: 'u' :: a :: b :: c :: d :: cs =>
    match hexValue a, hexValue b, hexValue c, hexValue d with
    | some h1, some h2, some h3, some h4 =>
      readString ((4096 * h1 + 256 * h2 + 16 * h3 + h4) :: acc) cs
    | _, _, _, _ => none
  | '\x5c' :: e :: cs =>
    if e = '\x22' ∨ e = '\x5c' ∨ e = '/' then readString (e.toNat :: acc) cs
    else if e = 'b' then readString (8 :: acc) cs
    else if e = 'f' then readString (12 :: acc) cs
    else if e = 'n' then readString (10 :: acc) cs
    else if e = 'r' then readString (13 :: acc) cs
    else if e = 't' then readString (9 :: acc) cs
    else none
  | c :: cs =>
    if c = '\x22' then some (acc.reverse, cs)
    else if c = '\x5c' ∨ c.toNat < 32 then none
    else readString ((utf16 c).reverse ++ acc) cs

/-- Reads a non-empty run of decimal digits. -/
def readDigits (cs : List Char) : Option (List Char × List Char) :=
  match cs.span Char.isDigit with
  | ([], _) => none
  | (ds, rest) => some (ds, rest)

/-- Reads a JSON number: sign, integer part without leading zero, fraction,
exponent. -/
def readNumber (cs : List Char) : Option (String × List Char) := do
  let (sign, cs1) := match cs with
    | '-' :: r => (['-'], r)
    | _ => ([], cs)
  let (intPart, cs2) ← match cs1 with
    | '0' :: r => some (['0'], r)
    | _ => readDigits cs1
  let (fracPart, cs3) ← match cs2 with
    | '.' :: r => (readDigits r).map (fun p => ('.' :: p.1, p.2))
    | _ => some ([], cs2)
  let (expPart, cs4) ← match cs3 with
    | e :: r =>
      if e = 'e' ∨ e = 'E' then
        match r with
        | '+' :: r2 => (readDigits r2).map (fun p => (e :: '+' :: p.1, p.2))
        | '-' :: r2 => (readDigits r2).map (fun p => (e :: '-' :: p.1, p.2))
        | _ => (readDigits r).map (fun p => (e :: p.1, p.2))
      else some ([], cs3)
    | [] => some ([], cs3)
  return (⟨sign ++ intPart ++ fracPart ++ expPart⟩, cs4)

mutual
/-- Reads one JSON value, white space before it included. -/
def readValue : Nat → List Char → Option (Json × List Char)
  | 0, _ => none
  | fuel + 1, cs =>
    match skipWs cs with
    | 'n' :: 'u' :: 'l' :: 'l' :: rest => some (.null, rest)
    | 't' :: 'r' :: 'u' :: 'e' :: rest => some (.bool true, rest)
    | 'f' :: 'a' :: 'l' :: 's' :: 'e' :: rest => some (.bool false, rest)
    | '\x22' :: rest => (readString [] rest).map (fun p => (.str p.1, p.2))
    | '[' :: rest =>
      match skipWs rest with
      | ']' :: rest2 => some (.arr [], rest2)
      | _ => readElements fuel rest []
    | '\x7b' :: rest =>
      match skipWs rest with
      | '\x7d' :: rest2 => some (.obj [], rest2)
      | _ => readMembers fuel rest []
    | other => (readNumber other).map (fun p => (.num p.1, p.2))
/-- Reads the elements of an array after its opening bracket. -/
def readElements : Nat → List Char → List Json → Option (Json × List Char)
  | 0, _, _ => none
  | fuel + 1, cs, acc =>
    match readValue fuel cs with
    | none => none
    | some (v, rest) =>
      match skipWs rest with
      | ',' :: rest2 => readElements fuel rest2 (v :: acc)
      | ']' :: rest2 => some (.arr (v :: acc).reverse, rest2)
      | _ => none
/-- Reads the members of an object after its opening brace. -/
def readMembers : Nat → List Char → List (List Nat × Json) → Option (Json × List Char)
  | 0, _, _ => none
  | fuel + 1, cs, acc =>
    match skipWs cs with
    | '\x22' :: rest =>
      match readString [] rest with
      | none => none
      | some (key, rest2) =>
        match skipWs rest2 with
        | ':' :: rest3 =>
          match readValue fuel rest3 with
          | none => none
          | some (v, rest4) =>
            match skipWs rest4 with
            | ',' :: rest5 => readMembers fuel rest5 ((key, v) :: acc)
            | '\x7d' :: rest5 => some (.obj ((key, v) :: acc).reverse, rest5)
            | _ => none
        | _ => none
    | _ => none
end

/-- A decoder for `JSON.parse`: the whole text must be one JSON value,
surrounded by optional white space; anything else throws a `SyntaxError`. -/
def jsonParse (text : String) : Except Err Json :=
  match readValue (2 * text.length + 2) text.data with
  | some (v, rest) =>
    if skipWs rest = [] then .ok v else .error "SyntaxError: Unexpected non-whitespace character after JSON"
  | none => .error "SyntaxError: Unexpected token in JSON"


/-! ## Sequences of requests -/

/-- The state of the database: the two collections. -/
structure Db where
  users : List User
  projects : List Project

/-- A request that writes to the database, together with the environment in
which its handler runs. -/
inductive Request where
  | register (env : DbEnv) (req : RegisterRequest)
  | createProject (env : ProjectEnv) (req : CreateProjectRequest)

/-- Handling one request to completion: the database after the handler. -/
def handle (db : Db) : Request → Db
  | .register env req => { db with users := (register env db.users req).2 }
  | .createProject env req => { db with projects := (createProject env db.projects req).2 }

/-- Handling a finite sequence of requests one at a time. -/
def handleAll (db : Db) (requests : List Request) : Db :=
  requests.foldl handle db

/-- No two user records share an email and no two project records share a
project name. -/
def UniqueKeys (db : Db) : Prop :=
  (db.users.map (fun u => u.email)).Nodup ∧ (db.projects.map (fun p => p.projectName)).Nodup

/-! ## Specification-side definitions

These follow the words of the specification and are compared with the code in
the theorems below. -/

/-- The distinct members of a list, each once, in order of first occurrence. -/
def firstOccurrences : List String → List String
  | [] => []
  | x :: xs => x :: (firstOccurrences xs).filter (fun y => y != x)

/-- The primary language of a repository when the listing names one: the
`language` field when it is a string. -/
def primaryLanguage (r : Repo) : Option String :=
  match r.language with
  | .string s => some s
  | _ => none

/-- The language list as specified: the distinct non-null primary languages of
the first 20 repositories, in order of first occurrence, joined by a comma and
a space. -/
def specLanguageList (repos : List Repo) : String :=
  ", ".intercalate (firstOccurrences ((repos.take 20).filterMap primaryLanguage))

/-- A language name that `languageCount` cannot record as written: the strings
`null` and `__proto__` and the array-index keys. -/
def isReservedKey (language : String) : Bool :=
  language == "null" || language == "__proto__" || isArrayIndex language

/-- A `language` field as the listing API documents it and as `languageCount`
records it faithfully: `null`, or a string that is not a reserved key. -/
def PlainLanguage (v : JsValue) : Prop :=
  v = .null ∨ ∃ l, v = .string l ∧ isReservedKey l = false

/-- The text an element contributes as specified: its trimmed text content
followed by one space when that trimmed text is non-empty, nothing otherwise. -/
def specPiece (e : Node) : String :=
  if jsTrim e.textContent = "" then "" else jsTrim e.textContent ++ " "

mutual
/-- The extraction as specified, for the subtree of one node: depth-first,
the element itself before its children. -/
def Node.specText : Node → String
  | .text _ => ""
  | .comment _ => ""
  | .element tagName childNodes =>
    specPiece (.element tagName childNodes) ++ specTextList childNodes
/-- The extraction as specified, for a list of sibling subtrees, left to right. -/
def specTextList : List Node → String
  | [] => ""
  | n :: ns => n.specText ++ specTextList ns
end

/-- The string the `forEach` callback appends for a node, if it appends one. -/
def appended (node : Node) : Option String :=
  if node.textContent ≠ "" ∧ jsTrim node.textContent ≠ "" then
    some (jsTrim node.textContent ++ " ")
  else none

/-- The strings appended to `pageText` by the loop, in order. -/
def appendedPieces (bodyChildNodes : List Node) : List String :=
  (querySelectorAllBodyStar bodyChildNodes).filterMap appended

mutual
/-- Every element of a subtree paired with its ancestor elements below the body,
nearest ancestor first; `above` lists the ancestors of the subtree's root. -/
def Node.withAncestors (above : List Node) : Node → List (Node × List Node)
  | .text _ => []
  | .comment _ => []
  | .element tagName childNodes =>
    (.element tagName childNodes, above)
      :: withAncestorsList (.element tagName childNodes :: above) childNodes
/-- The same for a list of sibling subtrees. -/
def withAncestorsList (above : List Node) : List Node → List (Node × List Node)
  | [] => []
  | n :: ns => n.withAncestors above ++ withAncestorsList above ns
end

/-- How many of the given strings contain the text `t` as a contiguous part. -/
def occurrences (t : String) (pieces : List String) : Nat :=
  pieces.countP (fun p => decide (t.data <:+: p.data))


/-! ## Sample inputs -/

/-- A form that names the project and its technology stack, sets the public flag
to the text `true` and the winner flag to the text `True`, and leaves the other
fields out. Used in the examples. -/
def sampleRequest (name stack : String) : CreateProjectRequest where
  projectName := some name
  hackathonName := none
  devpostUrl := none
  devfolioUrl := none
  githubUrl := none
  projectDescription := none
  techStack := some stack
  isProjectPublic := some "true"
  isWinner := some "True"
  userName := none
  filePath := none

/-- The document `<body><div>A<span>B</span></div></body>`, as the child nodes
of its body. -/
def nestedSpanBody : List Node :=
  [.element "div" [.text "A", .element "span" [.text "B"]]]

/-- A listing of 22 repositories: Python, no language, C++, Python again, a
language named like an inherited property, fifteen more Python repositories,
and past the 20th a Rust repository and one without a language field. -/
def sampleListing : List Repo :=
  [⟨.string "r1", .string "Python"⟩, ⟨.string "r2", .null⟩, ⟨.string "r3", .string "C++"⟩,
    ⟨.string "r4", .string "Python"⟩, ⟨.string "r5", .string "constructor"⟩]
    ++ List.replicate 15 ⟨.string "r", .string "Python"⟩
    ++ [⟨.string "r21", .string "Rust"⟩, ⟨.string "r22", .undefined⟩]

/-! ## Theorems -/

/-! ### The two handlers that write, case by case -/

theorem register_cases (env : DbEnv) (users : List User) (req : RegisterRequest) :
    register env users req =
      match env.findOneFault with
      | some _ => (⟨500, .error "Error registering user"⟩, users)
      | none =>
        if (users.find? (fun u => u.email == req.email)).isSome then
          (⟨200, .userExists true⟩, users)
        else
          match env.insertOneFault with
          | some _ => (⟨500, .error "Error registering user"⟩, users)
          | none => (⟨201, .message "User registered successfully"⟩,
              users ++ [⟨req.username, req.email⟩]) := by
  unfold register registerTry findOne insertOne
  cases env.findOneFault <;> simp [bind, Except.bind, pure, Except.pure]
  split_ifs
  · simp
  · cases env.insertOneFault <;> simp

theorem createProject_cases (env : ProjectEnv) (projects : List Project)
    (req : CreateProjectRequest) :
    createProject env projects req =
      match env.db.findOneFault with
      | some _ => (⟨500, .error "Error creating project"⟩, projects)
      | none =>
        if (projects.find? (fun p => p.projectName == req.projectName)).isSome then
          (⟨400, .error "Project with the same name already exists"⟩, projects)
        else
          match env.jsonParse (toStr req.techStack) with
          | .error _ => (⟨500, .error "Error creating project"⟩, projects)
          | .ok stack =>
            match env.db.insertOneFault with
            | some _ => (⟨500, .error "Error creating project"⟩, projects)
            | none => (⟨201, .message "Project created successfully"⟩,
                projects ++ [newProject req stack]) := by
  unfold createProject createProjectTry findOne insertOne
  cases env.db.findOneFault <;> simp [bind, Except.bind, pure, Except.pure]
  split_ifs
  · simp
  · cases env.jsonParse (toStr req.techStack) <;> simp
    cases env.db.insertOneFault <;> simp

/-- A lookup by key finds a document exactly when some stored document has the key. -/
theorem find_isSome_iff {α β : Type} [BEq β] [LawfulBEq β] (key : α → β) (k : β) (coll : List α) :
    (coll.find? (fun d => key d == k)).isSome = true ↔ ∃ d ∈ coll, key d = k := by
  simp [List.find?_isSome]

/-- A handler either leaves the users collection as it is or appends one record
whose email was not stored before. -/
theorem register_state (env : DbEnv) (users : List User) (req : RegisterRequest) :
    (register env users req).2 = users ∨
      ((register env users req).2 = users ++ [⟨req.username, req.email⟩] ∧
        (register env users req).1 = ⟨201, .message "User registered successfully"⟩ ∧
        ∀ u ∈ users, u.email ≠ req.email) := by
  rw [register_cases]
  cases env.findOneFault with
  | some e => simp
  | none =>
    by_cases h : (users.find? (fun u => u.email == req.email)).isSome = true
    · simp [h]
    · cases env.insertOneFault with
      | some e => simp [h]
      | none =>
        right
        have h2 : ∀ u ∈ users, u.email ≠ req.email := by
          intro u hu hemail
          exact h ((find_isSome_iff (fun u : User => u.email) req.email users).2 ⟨u, hu, hemail⟩)
        simp [h]
        simpa using h2

/-- The create-project handler either leaves the collection as it is or appends
one record whose project name was not stored before. -/
theorem createProject_state (env : ProjectEnv) (projects : List Project)
    (req : CreateProjectRequest) :
    (createProject env projects req).2 = projects ∨
      ∃ stack, (createProject env projects req).2 = projects ++ [newProject req stack] ∧
        (createProject env projects req).1 = ⟨201, .message "Project created successfully"⟩ ∧
        ∀ p ∈ projects, p.projectName ≠ req.projectName := by
  rw [createProject_cases]
  cases env.db.findOneFault with
  | some e => simp
  | none =>
    by_cases h : (projects.find? (fun p => p.projectName == req.projectName)).isSome = true
    · simp [h]
    · cases hp : env.jsonParse (toStr req.techStack) with
      | error e => simp [h]
      | ok stack =>
        cases env.db.insertOneFault with
        | some e => simp [h]
        | none =>
          right
          refine ⟨stack, ?_⟩
          have h2 : ∀ p ∈ projects, p.projectName ≠ req.projectName := by
            intro p hp hname
            exact h ((find_isSome_iff (fun p : Project => p.projectName) req.projectName
              projects).2 ⟨p, hp, hname⟩)
          simp [h]
          simpa using h2

/-! ### Registration -/

/-- C1: for every state of the users collection and every username and email,
if no stored record has that email then the register handler appends exactly
the record (username, email) and answers 201 with the message
"User registered successfully"; a following register call with the same email
and any username answers 200 with exists true and leaves the collection
exactly as the first call left it. The database is taken to answer its calls. -/
theorem register_then_register_same_email (users : List User)
    (username username2 email : Option String) (insertFault2 : Option Err)
    (hnew : ∀ u ∈ users, u.email ≠ email) :
    register DbEnv.healthy users ⟨username, email⟩ =
        (⟨201, .message "User registered successfully"⟩, users ++ [⟨username, email⟩]) ∧
      register ⟨none, insertFault2⟩ (register DbEnv.healthy users ⟨username, email⟩).2
          ⟨username2, email⟩ =
        (⟨200, .userExists true⟩, users ++ [⟨username, email⟩]) := by
  have hnone : (users.find? (fun u => u.email == email)).isSome = false := by
    rw [Bool.eq_false_iff]
    intro h
    obtain ⟨u, hu, he⟩ := (find_isSome_iff (fun u : User => u.email) email users).1 h
    exact hnew u hu he
  have h1 : register DbEnv.healthy users ⟨username, email⟩ =
      (⟨201, .message "User registered successfully"⟩, users ++ [⟨username, email⟩]) := by
    rw [register_cases]
    simp [DbEnv.healthy, hnone]
  refine ⟨h1, ?_⟩
  rw [h1, register_cases]
  have hsome : ((users ++ [(⟨username, email⟩ : User)]).find?
      (fun u => u.email == email)).isSome = true :=
    (find_isSome_iff (fun u : User => u.email) email _).2 ⟨⟨username, email⟩, by simp, rfl⟩
  simp only [hsome]
  simp

theorem register_then_register_same_email_witness :
    (∀ u ∈ [(⟨some "ann", some "ann@example.org"⟩ : User)], u.email ≠ some "bob@example.org") ∧
      register DbEnv.healthy [⟨some "ann", some "ann@example.org"⟩]
          ⟨some "bob", some "bob@example.org"⟩ =
        (⟨201, .message "User registered successfully"⟩,
          [⟨some "ann", some "ann@example.org"⟩, ⟨some "bob", some "bob@example.org"⟩]) ∧
      register ⟨none, none⟩ [⟨some "ann", some "ann@example.org"⟩,
          ⟨some "bob", some "bob@example.org"⟩] ⟨some "robert", some "bob@example.org"⟩ =
        (⟨200, .userExists true⟩,
          [⟨some "ann", some "ann@example.org"⟩, ⟨some "bob", some "bob@example.org"⟩]) :=
  ⟨by decide,
    (register_then_register_same_email [⟨some "ann", some "ann@example.org"⟩] (some "bob")
      (some "robert") (some "bob@example.org") none (by decide)).1,
    by decide⟩

/-! ### Project creation -/

/-- C2: for two create-project requests with the same projectName handled one
after the other, where the first one inserts, the second one answers 400 with
the error "Project with the same name already exists", whatever its other
fields and whatever the decoder says about its techStack, and the projects
collection after the second call equals the collection after the first call.
The database is taken to answer the lookup of the second call. -/
theorem createProject_twice_same_name (env1 env2 : ProjectEnv) (projects : List Project)
    (req1 req2 : CreateProjectRequest)
    (hname : req2.projectName = req1.projectName)
    (hfirst : (createProject env1 projects req1).2 ≠ projects)
    (hlookup : env2.db.findOneFault = none) :
    createProject env2 (createProject env1 projects req1).2 req2 =
      (⟨400, .error "Project with the same name already exists"⟩,
        (createProject env1 projects req1).2) := by
  rcases createProject_state env1 projects req1 with h | ⟨stack, h, -, -⟩
  · exact absurd h hfirst
  · rw [h, createProject_cases, hlookup]
    have hsome : ((projects ++ [newProject req1 stack]).find?
        (fun p => p.projectName == req2.projectName)).isSome = true :=
      (find_isSome_iff (fun p : Project => p.projectName) req2.projectName _).2
        ⟨newProject req1 stack, by simp, by simp [newProject, hname]⟩
    simp only [hsome]
    simp

theorem createProject_twice_same_name_witness :
    createProject ⟨DbEnv.healthy, jsonParse⟩
        (createProject ⟨DbEnv.healthy, jsonParse⟩ [] (sampleRequest "p2h" "[]")).2
        (sampleRequest "p2h" "oops") =
      (⟨400, .error "Project with the same name already exists"⟩,
        (createProject ⟨DbEnv.healthy, jsonParse⟩ [] (sampleRequest "p2h" "[]")).2) :=
  createProject_twice_same_name ⟨DbEnv.healthy, jsonParse⟩ ⟨DbEnv.healthy, jsonParse⟩ []
    (sampleRequest "p2h" "[]") (sampleRequest "p2h" "oops") rfl
    (by
      have h : (createProject ⟨DbEnv.healthy, jsonParse⟩ [] (sampleRequest "p2h" "[]")).2
          = [newProject (sampleRequest "p2h" "[]") (.arr [])] := rfl
      rw [h]
      exact List.cons_ne_nil _ _)
    rfl

/-- C3, counterexample: with a project named "p2h" stored, a request for the
same name whose techStack is the text "not json" (which the decoder rejects) is
answered 400 with the conflict message, not 500 with "Error creating project". -/
theorem conflict_precedes_techStack_decoding :
    (∃ e, jsonParse "not json" = .error e) ∧
      (sampleRequest "p2h" "not json").techStack = some "not json" ∧
      (createProject ⟨DbEnv.healthy, jsonParse⟩ [newProject (sampleRequest "p2h" "[]") (.arr [])]
          (sampleRequest "p2h" "not json")).1 =
        ⟨400, .error "Project with the same name already exists"⟩ ∧
      (createProject ⟨DbEnv.healthy, jsonParse⟩ [newProject (sampleRequest "p2h" "[]") (.arr [])]
          (sampleRequest "p2h" "not json")).1 ≠ ⟨500, .error "Error creating project"⟩ := by
  refine ⟨⟨_, rfl⟩, rfl, rfl, ?_⟩
  have h : (createProject ⟨DbEnv.healthy, jsonParse⟩
      [newProject (sampleRequest "p2h" "[]") (.arr [])] (sampleRequest "p2h" "not json")).1 =
      ⟨400, .error "Project with the same name already exists"⟩ := rfl
  rw [h]
  decide

/-- C3, amended: for every request whose techStack is a string the decoder
rejects and every state of the projects collection, the collection is
unchanged; the answer is 400 with the conflict message when the lookup succeeds
and a project with the same projectName is stored, and 500 with
"Error creating project" in every other case. -/
theorem createProject_invalid_techStack (env : ProjectEnv) (projects : List Project)
    (req : CreateProjectRequest) (s : String) (e : Err)
    (hfield : req.techStack = some s) (hbad : env.jsonParse s = .error e) :
    (createProject env projects req).2 = projects ∧
      ((env.db.findOneFault = none ∧ ∃ p ∈ projects, p.projectName = req.projectName) →
        (createProject env projects req).1 =
          ⟨400, .error "Project with the same name already exists"⟩) ∧
      (¬ (env.db.findOneFault = none ∧ ∃ p ∈ projects, p.projectName = req.projectName) →
        (createProject env projects req).1 = ⟨500, .error "Error creating project"⟩) := by
  have hparse : env.jsonParse (toStr req.techStack) = .error e := by
    rw [hfield]; exact hbad
  have hiff := find_isSome_iff (fun p : Project => p.projectName) req.projectName projects
  rw [createProject_cases]
  cases hf : env.db.findOneFault with
  | some e2 => simp
  | none =>
    by_cases h : (projects.find? (fun p => p.projectName == req.projectName)).isSome = true
    · have hex := hiff.1 h
      simp only [h]
      simp [hex]
    · have hex : ¬ ∃ p ∈ projects, p.projectName = req.projectName := fun hx => h (hiff.2 hx)
      simp only [h, hparse]
      simp [hex]

theorem createProject_invalid_techStack_witness :
    (createProject ⟨DbEnv.healthy, jsonParse⟩ [] (sampleRequest "p2h" "not json")).2 = [] ∧
      (createProject ⟨DbEnv.healthy, jsonParse⟩ [] (sampleRequest "p2h" "not json")).1 =
        ⟨500, .error "Error creating project"⟩ :=
  ⟨(createProject_invalid_techStack ⟨DbEnv.healthy, jsonParse⟩ [] (sampleRequest "p2h" "not json")
      "not json" "SyntaxError: Unexpected token in JSON" rfl rfl).1,
    (createProject_invalid_techStack ⟨DbEnv.healthy, jsonParse⟩ [] (sampleRequest "p2h" "not json")
      "not json" "SyntaxError: Unexpected token in JSON" rfl rfl).2.2 (by simp)⟩

/-- C4: for every create-project request that leads to an insert, exactly one
record is appended, its isProjectPublic is true if and only if the form field
isProjectPublic is exactly the string "true", and its isWinner is true if and
only if the form field isWinner is exactly the string "true"; so a field that is
"yes", "", "True" or missing is stored as false. -/
theorem createProject_flag_coercion (env : ProjectEnv) (projects : List Project)
    (req : CreateProjectRequest)
    (hinsert : (createProject env projects req).2 ≠ projects) :
    ∃ doc, (createProject env projects req).2 = projects ++ [doc] ∧
      (doc.isProjectPublic = true ↔ req.isProjectPublic = some "true") ∧
      (doc.isWinner = true ↔ req.isWinner = some "true") ∧
      (req.isProjectPublic ∈ [some "yes", some "", some "True", none] →
        doc.isProjectPublic = false) ∧
      (req.isWinner ∈ [some "yes", some "", some "True", none] → doc.isWinner = false) := by
  rcases createProject_state env projects req with h | ⟨stack, h, -, -⟩
  · exact absurd h hinsert
  · refine ⟨newProject req stack, h, by simp [newProject], by simp [newProject], ?_, ?_⟩
    · intro hmem
      have hne : req.isProjectPublic ≠ some "true" := by
        intro heq
        rw [heq] at hmem
        revert hmem
        decide
      simp [newProject, hne]
    · intro hmem
      have hne : req.isWinner ≠ some "true" := by
        intro heq
        rw [heq] at hmem
        revert hmem
        decide
      simp [newProject, hne]

theorem createProject_flag_coercion_witness :
    ∃ doc, (createProject ⟨DbEnv.healthy, jsonParse⟩ [] (sampleRequest "p2h" "[]")).2 = [] ++ [doc] ∧
      (doc.isProjectPublic = true ↔ (sampleRequest "p2h" "[]").isProjectPublic = some "true") ∧
      (doc.isWinner = true ↔ (sampleRequest "p2h" "[]").isWinner = some "true") ∧
      ((sampleRequest "p2h" "[]").isProjectPublic ∈ [some "yes", some "", some "True", none] →
        doc.isProjectPublic = false) ∧
      ((sampleRequest "p2h" "[]").isWinner ∈ [some "yes", some "", some "True", none] →
        doc.isWinner = false) :=
  createProject_flag_coercion ⟨DbEnv.healthy, jsonParse⟩ [] (sampleRequest "p2h" "[]")
    (by
      have h : (createProject ⟨DbEnv.healthy, jsonParse⟩ [] (sampleRequest "p2h" "[]")).2
          = [newProject (sampleRequest "p2h" "[]") (.arr [])] := rfl
      rw [h]
      exact List.cons_ne_nil _ _)

/-! ### Uniqueness of the identity keys -/

/-- Handling one request keeps the identity keys unique. -/
theorem handle_uniqueKeys (db : Db) (request : Request) (h : UniqueKeys db) :
    UniqueKeys (handle db request) := by
  obtain ⟨hu, hp⟩ := h
  cases request with
  | register env req =>
    refine ⟨?_, hp⟩
    show ((register env db.users req).2.map (fun u => u.email)).Nodup
    rcases register_state env db.users req with h | ⟨h, -, hnew⟩
    · rw [h]; exact hu
    · rw [h, List.map_append, List.nodup_append]
      refine ⟨hu, List.nodup_singleton _, ?_⟩
      intro a ha hb
      simp only [List.map_cons, List.map_nil, List.mem_singleton] at hb
      obtain ⟨u, hmem, rfl⟩ := List.mem_map.1 ha
      exact hnew u hmem hb
  | createProject env req =>
    refine ⟨hu, ?_⟩
    show ((createProject env db.projects req).2.map (fun p => p.projectName)).Nodup
    rcases createProject_state env db.projects req with h | ⟨stack, h, -, hnew⟩
    · rw [h]; exact hp
    · rw [h, List.map_append, List.nodup_append]
      refine ⟨hp, List.nodup_singleton _, ?_⟩
      intro a ha hb
      simp only [List.map_cons, List.map_nil, List.mem_singleton] at hb
      obtain ⟨p, hmem, rfl⟩ := List.mem_map.1 ha
      exact hnew p hmem hb

/-- C9: starting from a state in which no two user records share an email and
no two project records share a projectName, every finite sequence of register
and create-project requests handled one at a time, whatever the database
faults and decoder outcomes of each, leads to a state with the same two
uniqueness properties. -/
theorem handleAll_uniqueKeys (requests : List Request) (db : Db) (h : UniqueKeys db) :
    UniqueKeys (handleAll db requests) := by
  induction requests generalizing db with
  | nil => exact h
  | cons r rs ih => exact ih (handle db r) (handle_uniqueKeys db r h)

theorem handleAll_uniqueKeys_witness :
    UniqueKeys ⟨[], []⟩ ∧
      UniqueKeys (handleAll ⟨[], []⟩
        [.register DbEnv.healthy ⟨some "ann", some "ann@example.org"⟩,
         .createProject ⟨DbEnv.healthy, jsonParse⟩ (sampleRequest "p2h" "[]"),
         .register DbEnv.healthy ⟨some "anna", some "ann@example.org"⟩,
         .createProject ⟨DbEnv.healthy, jsonParse⟩ (sampleRequest "p2h" "[1]"),
         .register ⟨none, some "write concern error"⟩ ⟨some "bob", some "bob@example.org"⟩]) :=
  ⟨⟨List.nodup_nil, List.nodup_nil⟩,
    handleAll_uniqueKeys _ ⟨[], []⟩ ⟨List.nodup_nil, List.nodup_nil⟩⟩

/-! ### The freeform idea generator -/

/-- C7: for every description, theme and keyword sequence of any length and
content, the prompt is the fixed text with the description and the theme
inserted unchanged and the keywords joined by a comma and a space in their
given order; when the model call on that prompt succeeds with text t, the
handler answers 200 with idea t, so no input is rejected or altered. -/
theorem projectIdea_passthrough (generateContent : String → Except Err String)
    (description theme : String) (keywords : List String) (t : String)
    (hmodel : generateContent (projectIdeaPrompt (some description) (some theme) keywords)
      = .ok t) :
    projectIdea generateContent ⟨some description, some theme, some keywords⟩ = ⟨200, .idea t⟩ ∧
      projectIdeaPrompt (some description) (some theme) keywords =
        "Generate a unique project idea based on the following description, theme, and keywords:\n\n    Description: "
          ++ description ++ "\n    Theme: " ++ theme ++ "\n    Keywords: "
          ++ ", ".intercalate keywords
          ++ "\n    \n    Write a unique project idea in the format: Project Name: description: what makes it unique: tech stack: features: and another important things DO NOT WRITE ANYTHING ELSE OR USELESS" := by
  refine ⟨?_, rfl⟩
  simp [projectIdea, projectIdeaTry, bind, Except.bind, pure, Except.pure, hmodel]

theorem projectIdea_passthrough_witness :
    projectIdea (fun prompt => .ok ("echo: " ++ prompt)) ⟨some "a map", some "travel", some []⟩ =
        ⟨200, .idea ("echo: " ++ projectIdeaPrompt (some "a map") (some "travel") [])⟩ ∧
      projectIdeaPrompt (some "a map") (some "travel") [] =
        "Generate a unique project idea based on the following description, theme, and keywords:\n\n    Description: "
          ++ "a map" ++ "\n    Theme: " ++ "travel" ++ "\n    Keywords: "
          ++ ", ".intercalate []
          ++ "\n    \n    Write a unique project idea in the format: Project Name: description: what makes it unique: tech stack: features: and another important things DO NOT WRITE ANYTHING ELSE OR USELESS" :=
  projectIdea_passthrough (fun prompt => .ok ("echo: " ++ prompt)) "a map" "travel" [] _ rfl

/-! ### Failures -/

/-- C8, counterexample: a create-project request whose techStack is the text
"React, Node", which the decoder rejects, sent when a project of the same name
is stored, is answered 400 with the conflict message and not 500 with the
fixed message of the handler. -/
theorem malformed_techStack_answered_400 :
    (∃ e, jsonParse (toStr (sampleRequest "demo" "React, Node").techStack) = .error e) ∧
      (createProject ⟨DbEnv.healthy, jsonParse⟩
          (createProject ⟨DbEnv.healthy, jsonParse⟩ [] (sampleRequest "demo" "[\"React\"]")).2
          (sampleRequest "demo" "React, Node")).1 =
        ⟨400, .error "Project with the same name already exists"⟩ ∧
      (createProject ⟨DbEnv.healthy, jsonParse⟩
          (createProject ⟨DbEnv.healthy, jsonParse⟩ [] (sampleRequest "demo" "[\"React\"]")).2
          (sampleRequest "demo" "React, Node")).1.status ≠ 500 := by
  refine ⟨⟨_, rfl⟩, rfl, ?_⟩
  have h : (createProject ⟨DbEnv.healthy, jsonParse⟩
      (createProject ⟨DbEnv.healthy, jsonParse⟩ [] (sampleRequest "demo" "[\"React\"]")).2
      (sampleRequest "demo" "React, Node")).1.status = 400 := rfl
  rw [h]
  decide

/-- C8, amended: in each of the five handlers, whenever an upstream dependency
call (database, outbound fetch, decode of the listing, model call) fails, or an
input is malformed in a way that makes the handler throw inside its try block,
the answer is status 500 with the fixed message of that handler, the same for
every two underlying errors. The conjuncts give, in order: for register, a
failing lookup and a failing insert; for the GitHub idea handler, a failing
fetch, a failing decode of the listing, a listing on which the loop throws, and
a failing model call; for the freeform idea handler, keywords that are not an
array and a failing model call; for the scrape handler, a failing page fetch
and a failing model call; for create-project, a failing lookup, a techStack the
decoder rejects and a failing insert, both after a lookup that succeeds and
finds no project of that name; then that create-project answers 400 with the
conflict message when the lookup succeeds and finds a project of that name,
whether or not techStack is valid JSON; and last, for each handler, that any
error at all thrown inside its try block gives its fixed 500 answer. -/
theorem failure_gives_fixed_500 :
    (∀ (env : DbEnv) (users : List User) (req : RegisterRequest) (e : Err),
      env.findOneFault = some e →
        (register env users req).1 = ⟨500, .error "Error registering user"⟩) ∧
    (∀ (env : DbEnv) (users : List User) (req : RegisterRequest) (e : Err),
      env.findOneFault = none → (∀ u ∈ users, u.email ≠ req.email) →
      env.insertOneFault = some e →
        (register env users req).1 = ⟨500, .error "Error registering user"⟩) ∧
    (∀ (env : GithubEnv) (req : GithubIdeaRequest) (e : Err),
      env.fetch ("https://api.github.com/users/" ++ toStr req.gitHubToken ++ "/repos")
          = .error e →
        githubProjectIdea env req = ⟨500, .error "Error fetching GitHub repositories"⟩) ∧
    (∀ (env : GithubEnv) (req : GithubIdeaRequest) (resp : FetchResponse) (e : Err),
      env.fetch ("https://api.github.com/users/" ++ toStr req.gitHubToken ++ "/repos")
          = .ok resp →
      resp.json = .error e →
        githubProjectIdea env req = ⟨500, .error "Error fetching GitHub repositories"⟩) ∧
    (∀ (env : GithubEnv) (req : GithubIdeaRequest) (resp : FetchResponse),
      env.fetch ("https://api.github.com/users/" ++ toStr req.gitHubToken ++ "/repos")
          = .ok resp →
      resp.json = .ok .other →
        githubProjectIdea env req = ⟨500, .error "Error fetching GitHub repositories"⟩) ∧
    (∀ (env : GithubEnv) (req : GithubIdeaRequest) (resp : FetchResponse) (repos : List Repo)
      (e : Err),
      env.fetch ("https://api.github.com/users/" ++ toStr req.gitHubToken ++ "/repos")
          = .ok resp →
      resp.json = .ok (.array repos) →
      env.generateContent (githubPrompt repos req.ideaDesc) = .error e →
        githubProjectIdea env req = ⟨500, .error "Error fetching GitHub repositories"⟩) ∧
    (∀ (generateContent : String → Except Err String) (req : ProjectIdeaRequest),
      req.keywords = none →
        projectIdea generateContent req = ⟨500, .error "Error generating project idea"⟩) ∧
    (∀ (generateContent : String → Except Err String) (req : ProjectIdeaRequest)
      (keywords : List String) (e : Err),
      req.keywords = some keywords →
      generateContent (projectIdeaPrompt req.description req.theme keywords) = .error e →
        projectIdea generateContent req = ⟨500, .error "Error generating project idea"⟩) ∧
    (∀ (env : ScrapeEnv) (url : Option String) (e : Err),
      env.axiosGet url = .error e →
        scrapeAndReviewProject env url = ⟨500, .error "Error scraping and reviewing project"⟩) ∧
    (∀ (env : ScrapeEnv) (url : Option String) (data : String) (e : Err),
      env.axiosGet url = .ok data →
      env.generateContent (reviewPrompt (pageText (env.parseBody data))) = .error e →
        scrapeAndReviewProject env url = ⟨500, .error "Error scraping and reviewing project"⟩) ∧
    (∀ (env : ProjectEnv) (projects : List Project) (req : CreateProjectRequest) (e : Err),
      env.db.findOneFault = some e →
        (createProject env projects req).1 = ⟨500, .error "Error creating project"⟩) ∧
    (∀ (env : ProjectEnv) (projects : List Project) (req : CreateProjectRequest) (e : Err),
      env.db.findOneFault = none → (∀ p ∈ projects, p.projectName ≠ req.projectName) →
      env.jsonParse (toStr req.techStack) = .error e →
        (createProject env projects req).1 = ⟨500, .error "Error creating project"⟩) ∧
    (∀ (env : ProjectEnv) (projects : List Project) (req : CreateProjectRequest) (stack : Json)
      (e : Err),
      env.db.findOneFault = none → (∀ p ∈ projects, p.projectName ≠ req.projectName) →
      env.jsonParse (toStr req.techStack) = .ok stack →
      env.db.insertOneFault = some e →
        (createProject env projects req).1 = ⟨500, .error "Error creating project"⟩) ∧
    (∀ (env : ProjectEnv) (projects : List Project) (req : CreateProjectRequest),
      env.db.findOneFault = none → (∃ p ∈ projects, p.projectName = req.projectName) →
        (createProject env projects req).1 =
          ⟨400, .error "Project with the same name already exists"⟩) ∧
    (∀ (env : DbEnv) (users : List User) (req : RegisterRequest) (e : Err),
      registerTry env users req = .error e →
        register env users req = (⟨500, .error "Error registering user"⟩, users)) ∧
    (∀ (env : GithubEnv) (req : GithubIdeaRequest) (e : Err),
      githubProjectIdeaTry env req = .error e →
        githubProjectIdea env req = ⟨500, .error "Error fetching GitHub repositories"⟩) ∧
    (∀ (generateContent : String → Except Err String) (req : ProjectIdeaRequest) (e : Err),
      projectIdeaTry generateContent req = .error e →
        projectIdea generateContent req = ⟨500, .error "Error generating project idea"⟩) ∧
    (∀ (env : ScrapeEnv) (url : Option String) (e : Err),
      scrapeAndReviewProjectTry env url = .error e →
        scrapeAndReviewProject env url = ⟨500, .error "Error scraping and reviewing project"⟩) ∧
    (∀ (env : ProjectEnv) (projects : List Project) (req : CreateProjectRequest) (e : Err),
      createProjectTry env projects req = .error e →
        createProject env projects req =
          (⟨500, .error "Error creating project"⟩, projects)) := by
  have hfind : ∀ {α β : Type} [BEq β] [LawfulBEq β] (key : α → β) (k : β) (coll : List α),
      (∀ d ∈ coll, key d ≠ k) → (coll.find? (fun d => key d == k)).isSome = false := by
    intro α β _ _ key k coll h
    rw [Bool.eq_false_iff]
    intro hs
    obtain ⟨d, hd, hk⟩ := (find_isSome_iff key k coll).1 hs
    exact h d hd hk
  refine ⟨?_, ?_, ?_, ?_, ?_, ?_, ?_, ?_, ?_, ?_, ?_, ?_, ?_, ?_, ?_, ?_, ?_, ?_, ?_⟩
  · intro env users req e h
    rw [register_cases, h]
  · intro env users req e h hnew hins
    rw [register_cases, h, hins]
    simp [hfind (fun u : User => u.email) req.email users hnew]
  · intro env req e h
    simp [githubProjectIdea, githubProjectIdeaTry, bind, Except.bind, h]
  · intro env req resp e h hj
    simp [githubProjectIdea, githubProjectIdeaTry, bind, Except.bind, h, hj]
  · intro env req resp h hj
    simp [githubProjectIdea, githubProjectIdeaTry, bind, Except.bind, h, hj, throw, throwThe,
      MonadExceptOf.throw]
  · intro env req resp repos e h hj hg
    simp [githubProjectIdea, githubProjectIdeaTry, bind, Except.bind, h, hj, hg, pure,
      Except.pure]
  · intro g req h
    simp [projectIdea, projectIdeaTry, bind, Except.bind, h, throw, throwThe,
      MonadExceptOf.throw]
  · intro g req ks e h hg
    simp [projectIdea, projectIdeaTry, bind, Except.bind, h, hg, pure, Except.pure]
  · intro env url e h
    simp [scrapeAndReviewProject, scrapeAndReviewProjectTry, bind, Except.bind, h]
  · intro env url data e h hg
    simp [scrapeAndReviewProject, scrapeAndReviewProjectTry, bind, Except.bind, h, hg]
  · intro env projects req e h
    rw [createProject_cases, h]
  · intro env projects req e h hnew hp
    rw [createProject_cases, h, hp]
    simp [hfind (fun p : Project => p.projectName) req.projectName projects hnew]
  · intro env projects req stack e h hnew hp hins
    rw [createProject_cases, h, hp, hins]
    simp [hfind (fun p : Project => p.projectName) req.projectName projects hnew]
  · intro env projects req h hex
    have hsome := (find_isSome_iff (fun p : Project => p.projectName) req.projectName
      projects).2 hex
    rw [createProject_cases, h]
    simp only [hsome]
    simp
  · intro env users req e h
    simp [register, h]
  · intro env req e h
    simp [githubProjectIdea, h]
  · intro g req e h
    simp [projectIdea, h]
  · intro env url e h
    simp [scrapeAndReviewProject, h]
  · intro env projects req e h
    simp [createProject, h]

theorem failure_gives_fixed_500_witness :
    (register ⟨some "MongoNetworkError: connection closed", none⟩ []
        ⟨some "ann", some "ann@example.org"⟩).1 = ⟨500, .error "Error registering user"⟩ ∧
      (register ⟨some "MongoServerSelectionError: timed out", none⟩ []
        ⟨some "ann", some "ann@example.org"⟩).1 = ⟨500, .error "Error registering user"⟩ ∧
      projectIdea (fun _ => .ok "an idea") ⟨some "a map", some "travel", none⟩ =
        ⟨500, .error "Error generating project idea"⟩ ∧
      (createProject ⟨DbEnv.healthy, jsonParse⟩ [] (sampleRequest "p2h" "React, Node")).1 =
        ⟨500, .error "Error creating project"⟩ ∧
      (createProject ⟨DbEnv.healthy, jsonParse⟩ [newProject (sampleRequest "p2h" "[]") (.arr [])]
          (sampleRequest "p2h" "React, Node")).1 =
        ⟨400, .error "Project with the same name already exists"⟩ ∧
      (createProject ⟨⟨some "MongoNetworkError: connection closed", none⟩, jsonParse⟩
          [newProject (sampleRequest "p2h" "[]") (.arr [])]
          (sampleRequest "p2h" "React, Node")).1 = ⟨500, .error "Error creating project"⟩ :=
  ⟨failure_gives_fixed_500.1 ⟨some "MongoNetworkError: connection closed", none⟩ [] _ _ rfl,
    failure_gives_fixed_500.1 ⟨some "MongoServerSelectionError: timed out", none⟩ [] _ _ rfl,
    failure_gives_fixed_500.2.2.2.2.2.2.1 (fun _ => .ok "an idea") ⟨_, _, none⟩ rfl,
    failure_gives_fixed_500.2.2.2.2.2.2.2.2.2.2.2.1 ⟨DbEnv.healthy, jsonParse⟩ []
      (sampleRequest "p2h" "React, Node") "SyntaxError: Unexpected token in JSON" rfl
      (by simp) rfl,
    failure_gives_fixed_500.2.2.2.2.2.2.2.2.2.2.2.2.2.1 ⟨DbEnv.healthy, jsonParse⟩
      [newProject (sampleRequest "p2h" "[]") (.arr [])] (sampleRequest "p2h" "React, Node") rfl
      ⟨_, List.mem_singleton.2 rfl, rfl⟩,
    failure_gives_fixed_500.2.2.2.2.2.2.2.2.2.2.1
      ⟨⟨some "MongoNetworkError: connection closed", none⟩, jsonParse⟩
      [newProject (sampleRequest "p2h" "[]") (.arr [])] (sampleRequest "p2h" "React, Node") _ rfl⟩

/-! ### Text extraction -/

/-- Trimming the empty string gives the empty string. -/
theorem jsTrim_empty : jsTrim "" = "" := rfl

/-- The callback appends the specified piece of the node. -/
theorem appendNodeText_eq (acc : String) (node : Node) :
    appendNodeText acc node = acc ++ specPiece node := by
  unfold appendNodeText specPiece
  by_cases h : jsTrim node.textContent = ""
  · simp [h]
  · have h0 : node.textContent ≠ "" := by
      intro h1
      rw [h1] at h
      exact h jsTrim_empty
    simp [h, h0]

/-- The loop started from any accumulator appends what the loop started from
the empty string produces. -/
theorem foldl_appendNodeText (nodes : List Node) (acc : String) :
    nodes.foldl appendNodeText acc = acc ++ nodes.foldl appendNodeText "" := by
  induction nodes generalizing acc with
  | nil => simp
  | cons n ns ih =>
    rw [List.foldl_cons, List.foldl_cons, ih (appendNodeText acc n), ih (appendNodeText "" n),
      appendNodeText_eq, appendNodeText_eq, String.empty_append, String.append_assoc]

mutual
/-- The loop over the elements of one subtree yields the specified text. -/
theorem foldl_elements_eq_specText : ∀ n : Node,
    n.elements.foldl appendNodeText "" = n.specText
  | .text _ => by simp [Node.elements, Node.specText]
  | .comment _ => by simp [Node.elements, Node.specText]
  | .element tagName childNodes => by
    rw [Node.elements, Node.specText, List.foldl_cons, foldl_appendNodeText,
      appendNodeText_eq, String.empty_append, foldl_elementsList_eq_specTextList childNodes]
/-- The loop over the elements of sibling subtrees yields the specified text. -/
theorem foldl_elementsList_eq_specTextList : ∀ ns : List Node,
    (elementsList ns).foldl appendNodeText "" = specTextList ns
  | [] => by simp [elementsList, specTextList]
  | n :: ns => by
    rw [elementsList, specTextList, List.foldl_append, foldl_appendNodeText,
      foldl_elements_eq_specText n, foldl_elementsList_eq_specTextList ns]
end

/-- C5: for every parsed element tree, the accumulated pageText equals the
concatenation, over the elements below the body in depth-first pre-order, of
the trimmed text content of the element followed by one space when that
trimmed text is non-empty and of nothing otherwise; for the document
`<body><div>A<span>B</span></div></body>` the accumulated text is "AB B ". -/
theorem pageText_eq_specText :
    (∀ bodyChildNodes : List Node, pageText bodyChildNodes = specTextList bodyChildNodes) ∧
      pageText nestedSpanBody = "AB B " :=
  ⟨fun bodyChildNodes => foldl_elementsList_eq_specTextList bodyChildNodes, by decide⟩

/-! ### Duplication in the extraction -/

/-- The first element kept by `dropWhile` fails the test. -/
theorem head?_dropWhile_false {α : Type} (p : α → Bool) (l : List α) (c : α)
    (h : (l.dropWhile p).head? = some c) : p c = false := by
  induction l with
  | nil => simp at h
  | cons x xs ih =>
    by_cases hx : p x = true
    · rw [List.dropWhile_cons_of_pos hx] at h
      exact ih h
    · rw [List.dropWhile_cons_of_neg hx] at h
      simp only [List.head?_cons, Option.some.injEq] at h
      rw [← h]
      simpa using hx

/-- A contiguous part that starts with an element failing the test survives
`dropWhile`. -/
theorem infix_dropWhile {α : Type} (p : α → Bool) (w l : List α) (c : α)
    (hc : w.head? = some c) (hp : p c = false) (h : w <:+: l) : w <:+: l.dropWhile p := by
  induction l with
  | nil =>
    have hw : w = [] := List.eq_nil_of_infix_nil h
    rw [hw] at hc
    simp at hc
  | cons x xs ih =>
    by_cases hx : p x = true
    · rw [List.dropWhile_cons_of_pos hx]
      rcases List.infix_cons_iff.1 h with hpre | hin
      · exfalso
        obtain ⟨r, hr⟩ := hpre
        cases w with
        | nil => simp at hc
        | cons y ys =>
          simp only [List.head?_cons, Option.some.injEq] at hc
          simp only [List.cons_append, List.cons.injEq] at hr
          rw [← hr.1, hc, hp] at hx
          exact Bool.false_ne_true hx
      · exact ih hin
    · rw [List.dropWhile_cons_of_neg hx]
      exact h

/-- A contiguous part that ends with an element failing the test survives
`rdropWhile`. -/
theorem infix_rdropWhile {α : Type} (p : α → Bool) (w l : List α) (c : α)
    (hc : w.reverse.head? = some c) (hp : p c = false) (h : w <:+: l) :
    w <:+: l.rdropWhile p := by
  have h1 : w.reverse <:+: l.reverse := List.reverse_infix.2 h
  have h2 := infix_dropWhile p w.reverse l.reverse c hc hp h1
  have h3 := List.reverse_infix.2 h2
  rw [List.reverse_reverse] at h3
  exact h3

/-- The characters of a trimmed string. -/
theorem jsTrim_data (s : String) :
    (jsTrim s).data = (s.data.dropWhile isJsWhiteSpace).rdropWhile isJsWhiteSpace := rfl

/-- A trimmed string is a contiguous part of the string. -/
theorem jsTrim_within (s : String) : (jsTrim s).data <:+: s.data := by
  rw [jsTrim_data]
  exact (List.rdropWhile_prefix _ _).isInfix.trans (List.dropWhile_suffix _).isInfix

/-- Trimming is monotone for containment: when the text of `a` is a contiguous
part of the text of `b` and the trimmed text of `a` is non-empty, the trimmed
text of `a` is a contiguous part of the trimmed text of `b`. -/
theorem jsTrim_within_jsTrim (a b : String) (hne : jsTrim a ≠ "")
    (h : a.data <:+: b.data) : (jsTrim a).data <:+: (jsTrim b).data := by
  have hw : (jsTrim a).data ≠ [] := by
    intro h0
    exact hne (String.ext h0)
  have hin : (jsTrim a).data <:+: b.data := (jsTrim_within a).trans h
  obtain ⟨c, hc⟩ : ∃ c, (jsTrim a).data.head? = some c := by
    cases hd : (jsTrim a).data with
    | nil => exact absurd hd hw
    | cons x xs => exact ⟨x, rfl⟩
  obtain ⟨d, hd⟩ : ∃ d, (jsTrim a).data.reverse.head? = some d := by
    cases hr : (jsTrim a).data.reverse with
    | nil => exact absurd (List.reverse_eq_nil_iff.1 hr) hw
    | cons x xs => exact ⟨x, rfl⟩
  have hcws : isJsWhiteSpace c = false := by
    apply head?_dropWhile_false isJsWhiteSpace a.data c
    obtain ⟨r, hr⟩ := List.rdropWhile_prefix isJsWhiteSpace (a.data.dropWhile isJsWhiteSpace)
    rw [← jsTrim_data] at hr
    rw [← hr]
    cases hx : (jsTrim a).data with
    | nil => exact absurd hx hw
    | cons x xs =>
      rw [hx] at hc
      simpa using hc
  have hdws : isJsWhiteSpace d = false := by
    apply head?_dropWhile_false isJsWhiteSpace (a.data.dropWhile isJsWhiteSpace).reverse d
    have hrev : (jsTrim a).data.reverse =
        (a.data.dropWhile isJsWhiteSpace).reverse.dropWhile isJsWhiteSpace := by
      rw [jsTrim_data, List.rdropWhile, List.reverse_reverse]
    rw [← hrev]
    exact hd
  rw [jsTrim_data b]
  exact infix_rdropWhile _ _ _ d hd hdws (infix_dropWhile _ _ _ c hc hcws hin)

/-- A node with non-empty trimmed text gets its trimmed text and one space
appended. -/
theorem appended_of_jsTrim_ne (node : Node) (h : jsTrim node.textContent ≠ "") :
    appended node = some (jsTrim node.textContent ++ " ") := by
  have h0 : node.textContent ≠ "" := by
    intro h1
    rw [h1] at h
    exact h jsTrim_empty
  simp [appended, h, h0]

/-- The accumulated text is the concatenation of the appended strings. -/
theorem foldl_appendNodeText_eq_join (nodes : List Node) (acc : String) :
    nodes.foldl appendNodeText acc = (nodes.filterMap appended).foldl (fun r s => r ++ s) acc := by
  induction nodes generalizing acc with
  | nil => rfl
  | cons n ns ih =>
    rw [List.foldl_cons, ih]
    by_cases h : n.textContent ≠ "" ∧ jsTrim n.textContent ≠ ""
    · have ha : appended n = some (jsTrim n.textContent ++ " ") := by simp [appended, h]
      rw [List.filterMap_cons_some ha, List.foldl_cons]
      simp [appendNodeText, h]
    · have ha : appended n = none := by simp only [appended, if_neg h]
      rw [List.filterMap_cons_none ha]
      simp only [appendNodeText, if_neg h]

mutual
/-- Where an element of a subtree sits: it is selected, its text is part of the
text of the subtree, and each of its ancestors inside the subtree is selected
and has a text containing the text of the element. -/
theorem withAncestors_spec (above : List Node) : ∀ (n : Node) (e : Node) (ancs : List Node),
    (e, ancs) ∈ n.withAncestors above →
      e ∈ n.elements ∧ e.textContent.data <:+: n.descendantText.data ∧
      ∃ inner, ancs = inner ++ above ∧
        ∀ a ∈ inner, a ∈ n.elements ∧ e.textContent.data <:+: a.textContent.data
  | .text _, e, ancs, h => by simp [Node.withAncestors] at h
  | .comment _, e, ancs, h => by simp [Node.withAncestors] at h
  | .element tagName childNodes, e, ancs, h => by
    rw [Node.withAncestors, List.mem_cons] at h
    rcases h with h | h
    · obtain ⟨rfl, rfl⟩ := Prod.mk.inj h
      refine ⟨by simp [Node.elements], ?_, [], by simp, by simp⟩
      simp only [Node.textContent, Node.descendantText]
      exact List.infix_refl _
    · obtain ⟨h1, h2, inner, h3, h4⟩ :=
        withAncestorsList_spec (.element tagName childNodes :: above) childNodes e ancs h
      refine ⟨by simp [Node.elements, h1], ?_, inner ++ [.element tagName childNodes],
        by simp [h3], ?_⟩
      · simpa only [Node.descendantText] using h2
      · intro a ha
        rcases List.mem_append.1 ha with ha | ha
        · exact ⟨by simp [Node.elements, (h4 a ha).1], (h4 a ha).2⟩
        · rw [List.mem_singleton] at ha
          rw [ha]
          refine ⟨by simp [Node.elements], ?_⟩
          simpa only [Node.textContent] using h2
/-- The same for a list of sibling subtrees. -/
theorem withAncestorsList_spec (above : List Node) : ∀ (ns : List Node) (e : Node)
    (ancs : List Node), (e, ancs) ∈ withAncestorsList above ns →
      e ∈ elementsList ns ∧ e.textContent.data <:+: (descendantTextList ns).data ∧
      ∃ inner, ancs = inner ++ above ∧
        ∀ a ∈ inner, a ∈ elementsList ns ∧ e.textContent.data <:+: a.textContent.data
  | [], e, ancs, h => by simp [withAncestorsList] at h
  | n :: ns, e, ancs, h => by
    rw [withAncestorsList, List.mem_append] at h
    rcases h with h | h
    · obtain ⟨h1, h2, inner, h3, h4⟩ := withAncestors_spec above n e ancs h
      refine ⟨by simp [elementsList, h1], ?_, inner, h3, ?_⟩
      · rw [descendantTextList, String.data_append]
        exact h2.trans (List.infix_append' [] _ _)
      · intro a ha
        exact ⟨by simp [elementsList, (h4 a ha).1], (h4 a ha).2⟩
    · obtain ⟨h1, h2, inner, h3, h4⟩ := withAncestorsList_spec above ns e ancs h
      refine ⟨by simp [elementsList, h1], ?_, inner, h3, ?_⟩
      · rw [descendantTextList, String.data_append]
        exact h2.trans (List.suffix_append _ _).isInfix
      · intro a ha
        exact ⟨by simp [elementsList, (h4 a ha).1], (h4 a ha).2⟩
end

/-- An appended string contains the trimmed text it was built from, and any
part of that trimmed text. -/
theorem infix_appended_piece (t : String) (node : Node)
    (h : t.data <:+: (jsTrim node.textContent).data) :
    t.data <:+: (jsTrim node.textContent ++ " ").data := by
  rw [String.data_append]
  exact h.trans (List.prefix_append _ _).isInfix

/-- An ancestor of an element with non-empty trimmed text has a non-empty
trimmed text containing it. -/
theorem jsTrim_ancestor (e a : Node) (hne : jsTrim e.textContent ≠ "")
    (h : e.textContent.data <:+: a.textContent.data) :
    jsTrim a.textContent ≠ "" ∧
      (jsTrim e.textContent).data <:+: (jsTrim a.textContent).data := by
  have hin := jsTrim_within_jsTrim e.textContent a.textContent hne h
  refine ⟨?_, hin⟩
  intro h0
  rw [h0] at hin
  exact hne (String.ext (List.eq_nil_of_infix_nil hin))

/-- Counting the appended strings of two consecutive runs of the loop. -/
theorem occurrences_append (t : String) (ps qs : List String) :
    occurrences t (ps ++ qs) = occurrences t ps + occurrences t qs := by
  simp [occurrences, List.countP_append]

/-- Counting when the first appended string contains the text. -/
theorem occurrences_cons_of_infix (t p : String) (ps : List String) (h : t.data <:+: p.data) :
    occurrences t (p :: ps) = occurrences t ps + 1 := by
  simp [occurrences, List.countP_cons, h]

mutual
/-- Inside one subtree, the trimmed text of an element is contained in at least
as many appended strings as the element has ancestors inside the subtree, plus
one. -/
theorem occurrences_withAncestors (above : List Node) : ∀ (n : Node) (e : Node)
    (ancs : List Node), (e, ancs) ∈ n.withAncestors above → jsTrim e.textContent ≠ "" →
      ancs.length + 1 ≤
        occurrences (jsTrim e.textContent) (n.elements.filterMap appended) + above.length
  | .text _, e, ancs, h, _ => by simp [Node.withAncestors] at h
  | .comment _, e, ancs, h, _ => by simp [Node.withAncestors] at h
  | .element tagName childNodes, e, ancs, h, hne => by
    rw [Node.withAncestors, List.mem_cons] at h
    rcases h with h | h
    · obtain ⟨rfl, rfl⟩ := Prod.mk.inj h
      rw [Node.elements, List.filterMap_cons_some (appended_of_jsTrim_ne _ hne),
        occurrences_cons_of_infix _ _ _ (infix_appended_piece _ _ (List.infix_refl _))]
      omega
    · have hspec :=
        withAncestorsList_spec (.element tagName childNodes :: above) childNodes e ancs h
      have hanc := jsTrim_ancestor e (.element tagName childNodes) hne
        (by simpa only [Node.textContent] using hspec.2.1)
      have ih := occurrences_withAncestorsList (.element tagName childNodes :: above)
        childNodes e ancs h hne
      rw [Node.elements, List.filterMap_cons_some (appended_of_jsTrim_ne _ hanc.1),
        occurrences_cons_of_infix _ _ _ (infix_appended_piece _ _ hanc.2)]
      simp only [List.length_cons] at ih
      omega
/-- The same for a list of sibling subtrees. -/
theorem occurrences_withAncestorsList (above : List Node) : ∀ (ns : List Node) (e : Node)
    (ancs : List Node), (e, ancs) ∈ withAncestorsList above ns → jsTrim e.textContent ≠ "" →
      ancs.length + 1 ≤
        occurrences (jsTrim e.textContent) ((elementsList ns).filterMap appended) + above.length
  | [], e, ancs, h, _ => by simp [withAncestorsList] at h
  | n :: ns, e, ancs, h, hne => by
    rw [withAncestorsList, List.mem_append] at h
    rw [elementsList, List.filterMap_append, occurrences_append]
    rcases h with h | h
    · have ih := occurrences_withAncestors above n e ancs h hne
      omega
    · have ih := occurrences_withAncestorsList above ns e ancs h hne
      omega
end

/-- C10: for every element tree and every element e below the body whose
trimmed text content is non-empty, with its ancestor elements below the body
listed in `ancestors`: the accumulated pageText is the concatenation of the
appended strings; e is visited and its trimmed text followed by a space is
appended for e itself; each ancestor is visited and the string appended for it
contains the trimmed text of e; and at least (number of ancestors + 1) of the
appended strings contain the trimmed text of e, so an element nested k levels
below the body has its text concatenated at least k times. -/
theorem descendant_text_duplicated (bodyChildNodes : List Node) (e : Node)
    (ancestors : List Node)
    (hbelow : (e, ancestors) ∈ withAncestorsList [] bodyChildNodes)
    (htext : jsTrim e.textContent ≠ "") :
    pageText bodyChildNodes = String.join (appendedPieces bodyChildNodes) ∧
      e ∈ querySelectorAllBodyStar bodyChildNodes ∧
      appended e = some (jsTrim e.textContent ++ " ") ∧
      (∀ a ∈ ancestors, a ∈ querySelectorAllBodyStar bodyChildNodes ∧
        appended a = some (jsTrim a.textContent ++ " ") ∧
        (jsTrim e.textContent).data <:+: (jsTrim a.textContent ++ " ").data) ∧
      ancestors.length + 1 ≤ occurrences (jsTrim e.textContent) (appendedPieces bodyChildNodes) := by
  obtain ⟨h1, -, inner, h3, h4⟩ := withAncestorsList_spec [] bodyChildNodes e ancestors hbelow
  rw [List.append_nil] at h3
  subst h3
  refine ⟨foldl_appendNodeText_eq_join _ _, h1, appended_of_jsTrim_ne e htext, ?_, ?_⟩
  · intro a ha
    have hanc := jsTrim_ancestor e a htext (h4 a ha).2
    exact ⟨(h4 a ha).1, appended_of_jsTrim_ne a hanc.1, infix_appended_piece _ _ hanc.2⟩
  · have h := occurrences_withAncestorsList [] bodyChildNodes e ancestors hbelow htext
    simpa [appendedPieces, querySelectorAllBodyStar] using h

theorem descendant_text_duplicated_witness :
    pageText nestedSpanBody = String.join (appendedPieces nestedSpanBody) ∧
      Node.element "span" [.text "B"] ∈ querySelectorAllBodyStar nestedSpanBody ∧
      appended (.element "span" [.text "B"]) =
        some (jsTrim (Node.element "span" [.text "B"]).textContent ++ " ") ∧
      (∀ a ∈ [Node.element "div" [.text "A", .element "span" [.text "B"]]],
        a ∈ querySelectorAllBodyStar nestedSpanBody ∧
        appended a = some (jsTrim a.textContent ++ " ") ∧
        (jsTrim (Node.element "span" [.text "B"]).textContent).data <:+:
          (jsTrim a.textContent ++ " ").data) ∧
      [Node.element "div" [.text "A", .element "span" [.text "B"]]].length + 1 ≤
        occurrences (jsTrim (Node.element "span" [.text "B"]).textContent)
          (appendedPieces nestedSpanBody) :=
  descendant_text_duplicated nestedSpanBody (.element "span" [.text "B"])
    [.element "div" [.text "A", .element "span" [.text "B"]]]
    (by simp [nestedSpanBody, withAncestorsList, Node.withAncestors])
    (by decide)

/-! ### The language list of the GitHub idea prompt -/

/-- Recording a key: nothing changes when it is present, else it goes last. -/
theorem set_keys (o : JsObject) (k : String) (v : TallyVal) (hk : k ≠ "__proto__") :
    (o.set k v).props.map Prod.fst =
      if k ∈ o.props.map Prod.fst then o.props.map Prod.fst else o.props.map Prod.fst ++ [k] := by
  unfold JsObject.set
  rw [if_neg hk]
  by_cases hany : o.props.any (fun p => p.1 == k) = true
  · have hmem : k ∈ o.props.map Prod.fst := by
      obtain ⟨p, hp, hpk⟩ := List.any_eq_true.1 hany
      exact List.mem_map.2 ⟨p, hp, by simpa using hpk⟩
    rw [if_pos hany, if_pos hmem]
    simp only [List.map_map]
    apply List.map_congr_left
    intro p _
    by_cases hp : p.1 = k
    · simp [hp]
    · simp [hp]
  · have hmem : k ∉ o.props.map Prod.fst := by
      intro hm
      obtain ⟨p, hp, hpk⟩ := List.mem_map.1 hm
      exact hany (List.any_eq_true.2 ⟨p, hp, by simpa using hpk⟩)
    rw [if_neg hany, if_neg hmem]
    simp

/-- The members of `firstOccurrences` are members of the list. -/
theorem mem_of_mem_firstOccurrences (k : String) :
    ∀ ks : List String, k ∈ firstOccurrences ks → k ∈ ks
  | [], h => by simp [firstOccurrences] at h
  | x :: xs, h => by
    rw [firstOccurrences, List.mem_cons] at h
    rcases h with h | h
    · exact h ▸ List.mem_cons_self _ _
    · exact List.mem_cons_of_mem _ (mem_of_mem_firstOccurrences k xs (List.mem_filter.1 h).1)

/-- Keeping the members that pass a test commutes with `firstOccurrences`. -/
theorem filter_firstOccurrences (p : String → Bool) :
    ∀ ks : List String, (firstOccurrences ks).filter p = firstOccurrences (ks.filter p)
  | [] => by simp [firstOccurrences]
  | x :: xs => by
    by_cases hx : p x = true
    · rw [firstOccurrences, List.filter_cons_of_pos hx, List.filter_cons_of_pos hx,
        firstOccurrences, List.filter_filter, ← filter_firstOccurrences p xs, List.filter_filter]
      congr 1
      apply List.filter_congr
      intro y _
      exact Bool.and_comm _ _
    · rw [firstOccurrences, List.filter_cons_of_neg hx, List.filter_cons_of_neg hx,
        List.filter_filter, ← filter_firstOccurrences p xs]
      apply List.filter_congr
      intro y _
      by_cases hy : p y = true
      · have hne : y ≠ x := fun h => hx (h ▸ hy)
        simp [hy, hne]
      · simp [hy]

/-- Recording the keys one after the other keeps the keys already present and
appends the new ones in order of first occurrence. -/
theorem foldl_record_keys (ks : List String) : ∀ acc : List String,
    ks.foldl (fun own k => if k ∈ own then own else own ++ [k]) acc =
      acc ++ (firstOccurrences ks).filter (fun k => decide (k ∉ acc)) := by
  induction ks with
  | nil => intro acc; simp [firstOccurrences]
  | cons x xs ih =>
    intro acc
    rw [List.foldl_cons, ih, firstOccurrences]
    by_cases hx : x ∈ acc
    · have hdec : decide (x ∉ acc) = false := by simpa using hx
      rw [if_pos hx, List.filter_cons_of_neg (by simp [hdec]), List.filter_filter]
      congr 1
      apply List.filter_congr
      intro y _
      by_cases hy : y ∈ acc
      · simp [hy]
      · have hne : y ≠ x := fun h => hy (h ▸ hx)
        simp [hy, hne]
    · have hdec : decide (x ∉ acc) = true := by simpa using hx
      rw [if_neg hx, List.filter_cons_of_pos (p := fun k => decide (k ∉ acc)) hdec,
        List.filter_filter, List.append_assoc,
        List.singleton_append]
      congr 2
      apply List.filter_congr
      intro y _
      by_cases hy : y ∈ acc
      · simp [hy]
      · by_cases hne : y = x
        · simp [hne]
        · simp [hy, hne]

/-- The keys of `languageCount` after the loop, when no key is `__proto__`. -/
theorem foldl_tally_keys (rs : List Repo)
    (hk : ∀ r ∈ rs, toPropertyKey r.language ≠ "__proto__") : ∀ o : JsObject,
    (rs.foldl tally o).props.map Prod.fst =
      (rs.map (fun r => toPropertyKey r.language)).foldl
        (fun own k => if k ∈ own then own else own ++ [k]) (o.props.map Prod.fst) := by
  induction rs with
  | nil => intro o; rfl
  | cons r rs ih =>
    intro o
    rw [List.foldl_cons, ih (fun r2 h2 => hk r2 (List.mem_cons_of_mem _ h2)), List.map_cons,
      List.foldl_cons, tally, set_keys _ _ _ (hk r (List.mem_cons_self _ _))]

/-- Dropping the key `null` from the recorded keys leaves the languages that
are strings, when every `language` field is plain. -/
theorem filter_null_keys : ∀ rs : List Repo, (∀ r ∈ rs, PlainLanguage r.language) →
    (rs.map (fun r => toPropertyKey r.language)).filter (fun language => language != "null") =
      rs.filterMap primaryLanguage
  | [], _ => rfl
  | r :: rs, h => by
    have ih := filter_null_keys rs (fun r2 h2 => h r2 (List.mem_cons_of_mem _ h2))
    rcases h r (List.mem_cons_self _ _) with hl | ⟨l, hl, hres⟩
    · have hp : primaryLanguage r = none := by simp [primaryLanguage, hl]
      rw [List.map_cons, List.filterMap_cons_none hp, hl, ← ih]
      rfl
    · have hp : primaryLanguage r = some l := by simp [primaryLanguage, hl]
      have hne : l ≠ "null" := by
        intro h0
        rw [h0] at hres
        revert hres
        decide
      rw [List.map_cons, List.filterMap_cons_some hp, hl, ← ih]
      simp [toPropertyKey, hne]

/-- A list of keys none of which is an array index is listed by `Object.keys`
in creation order. -/
theorem keys_of_no_arrayIndex (o : JsObject)
    (h : ∀ k ∈ o.props.map Prod.fst, isArrayIndex k = false) :
    o.keys = o.props.map Prod.fst := by
  unfold JsObject.keys
  have h1 : (o.props.map Prod.fst).filter isArrayIndex = [] := by
    rw [List.filter_eq_nil_iff]
    intro k hk
    simp [h k hk]
  have h2 : (o.props.map Prod.fst).filter (fun k => !isArrayIndex k) = o.props.map Prod.fst := by
    rw [List.filter_eq_self]
    intro k hk
    simp [h k hk]
  simp only [h1, h2]
  simp

/-- The language list equals the specified one when every `language` field
among the first 20 repositories is plain. -/
theorem languageList_eq_specLanguageList (repos : List Repo)
    (hplain : ∀ r ∈ repos.take 20, PlainLanguage r.language) :
    languageList repos = specLanguageList repos := by
  have hkey : ∀ r ∈ repos.take 20, toPropertyKey r.language ≠ "__proto__" ∧
      isArrayIndex (toPropertyKey r.language) = false := by
    intro r hr
    rcases hplain r hr with hl | ⟨l, hl, hres⟩
    · rw [hl]
      exact ⟨by decide, by decide⟩
    · rw [hl]
      simp only [isReservedKey, Bool.or_eq_false_iff, beq_eq_false_iff_ne] at hres
      exact ⟨hres.1.2, hres.2⟩
  have hown : (languageCount repos).props.map Prod.fst =
      firstOccurrences ((repos.take 20).map (fun r => toPropertyKey r.language)) := by
    unfold languageCount
    rw [foldl_tally_keys _ (fun r hr => (hkey r hr).1), foldl_record_keys]
    simp
  have hidx : ∀ k ∈ (languageCount repos).props.map Prod.fst, isArrayIndex k = false := by
    intro k hk
    rw [hown] at hk
    obtain ⟨r, hr, rfl⟩ := List.mem_map.1 (mem_of_mem_firstOccurrences k _ hk)
    exact (hkey r hr).2
  unfold languageList specLanguageList
  rw [keys_of_no_arrayIndex _ hidx, hown, filter_firstOccurrences, filter_null_keys _ hplain]

/-- C6, counterexample: a repository without a language field contributes the
text "undefined" to the list; a repository whose language is the string "null"
contributes nothing although its language is not null; the language "7" is
listed before the language "Go" that occurs first; a repository whose language
is "__proto__" contributes nothing. -/
theorem languageList_reserved_keys :
    languageList [⟨.string "r1", .undefined⟩, ⟨.string "r2", .string "Go"⟩] = "undefined, Go" ∧
      specLanguageList [⟨.string "r1", .undefined⟩, ⟨.string "r2", .string "Go"⟩] = "Go" ∧
      languageList [⟨.string "r1", .string "null"⟩] = "" ∧
      specLanguageList [⟨.string "r1", .string "null"⟩] = "null" ∧
      languageList [⟨.string "r1", .string "Go"⟩, ⟨.string "r2", .string "7"⟩] = "7, Go" ∧
      specLanguageList [⟨.string "r1", .string "Go"⟩, ⟨.string "r2", .string "7"⟩] = "Go, 7" ∧
      languageList [⟨.string "r1", .string "__proto__"⟩] = "" ∧
      specLanguageList [⟨.string "r1", .string "__proto__"⟩] = "__proto__" := by
  decide

/-- C6, amended: for every repository list in which the language field of each
of the first 20 repositories is null or a string, and no such string is "null",
"__proto__" or the canonical decimal form of an integer below 2^32 - 1, the
language list interpolated into the prompt consists of exactly the distinct
non-null languages of the first 20 repositories, each once, in order of first
occurrence, joined by a comma and a space, and the prompt contains the
caller's ideaDesc unchanged; repositories past the 20th contribute nothing;
and this prompt is the one sent to the model, whose text is the idea answered. -/
theorem githubPrompt_languages (repos : List Repo) (ideaDesc : String)
    (hplain : ∀ r ∈ repos.take 20, PlainLanguage r.language) :
    githubPrompt repos (some ideaDesc) =
        "A user whose top GitHub Repos consist of these languages : "
          ++ ", ".intercalate (firstOccurrences ((repos.take 20).filterMap primaryLanguage))
          ++ ". Give review in about 1 line, idea description is " ++ ideaDesc
          ++ " (Write a unique project idea in the format: Project Name: description: what makes it unique: tech stack: features: and another important things DO NOT WRITE ANYTHING ELSE OR USELESS)" ∧
      githubPrompt repos (some ideaDesc) = githubPrompt (repos.take 20) (some ideaDesc) ∧
      ∀ (env : GithubEnv) (gitHubToken : Option String) (resp : FetchResponse) (t : String),
        env.fetch ("https://api.github.com/users/" ++ toStr gitHubToken ++ "/repos") = .ok resp →
        resp.json = .ok (.array repos) →
        env.generateContent (githubPrompt repos (some ideaDesc)) = .ok t →
          githubProjectIdea env ⟨gitHubToken, some ideaDesc⟩ = ⟨200, .idea t⟩ := by
  refine ⟨?_, ?_, ?_⟩
  · unfold githubPrompt
    rw [languageList_eq_specLanguageList repos hplain]
    rfl
  · unfold githubPrompt languageList languageCount
    rw [List.take_take]
    rfl
  · intro env gitHubToken resp t hfetch hjson hmodel
    simp [githubProjectIdea, githubProjectIdeaTry, bind, Except.bind, pure, Except.pure, hfetch,
      hjson, hmodel]

theorem githubPrompt_languages_witness :
    githubPrompt sampleListing (some "a map") =
      "A user whose top GitHub Repos consist of these languages : "
        ++ ", ".intercalate (firstOccurrences ((sampleListing.take 20).filterMap primaryLanguage))
        ++ ". Give review in about 1 line, idea description is " ++ "a map"
        ++ " (Write a unique project idea in the format: Project Name: description: what makes it unique: tech stack: features: and another important things DO NOT WRITE ANYTHING ELSE OR USELESS)" ∧
      ", ".intercalate (firstOccurrences ((sampleListing.take 20).filterMap primaryLanguage)) =
        "Python, C++, constructor" :=
  ⟨(githubPrompt_languages sampleListing "a map"
    (by
      have hlisted : ∀ r ∈ sampleListing.take 20, r.language = .null ∨
          r.language = .string "Python" ∨ r.language = .string "C++" ∨
          r.language = .string "constructor" := by decide
      intro r hr
      rcases hlisted r hr with h | h | h | h
      · exact Or.inl h
      · exact Or.inr ⟨_, h, by decide⟩
      · exact Or.inr ⟨_, h, by decide⟩
      · exact Or.inr ⟨_, h, by decide⟩)).1,
    by decide⟩

end Path2Hack
